import Mathlib

/-!
Verification development for pyxnat's archive-mirror module
(`pyxnat/core/archive.py`). The Python source is shallowly embedded:

* paths are `String`s; the relevant pieces of `os.path` (`join`, `dirname`,
  `relpath`) and the string methods the source uses (`startswith`, slicing)
  are embedded with their POSIX/Python semantics, implemented over the
  character list of the string so that they evaluate by kernel reduction;
* the filesystem is a pair of lists (paths that exist as files, paths that
  exist as directories); side effects are threaded explicitly through a
  state that also records an event trace (file fetches, bulk fetches,
  directory copies, zip writes/extractions, directory creation);
* the external collaborators (File and Resource handles, their download
  operations) are opaque per the spec's interface boundary and are modelled
  by an environment of oracles;
* a Python exception is a value of `PyErr`; a function that can raise
  returns `Except PyErr α` together with the state reached when the
  exception escapes (side effects performed before the raise persist).
-/

/-- Python `s.startswith(p)`, decided on the character lists. -/
def startswith (s p : String) : Bool :=
  p.toList.isPrefixOf s.toList

/-- Python slicing `s[n:]` (drop the first `n` code points). -/
def sdrop (s : String) (n : Nat) : String :=
  String.mk (s.toList.drop n)

/-- Whether a string's final character is '/'. -/
def endsWithSlash (s : String) : Bool :=
  s.toList.getLast? = some '/'

/-- POSIX two-argument `os.path.join`: if the second component is absolute it
replaces the first; otherwise the two are joined, inserting a separator when
the first does not already end in one. -/
def os_join (a b : String) : String :=
  if startswith b "/" then b
  else if a = "" ∨ endsWithSlash a then a ++ b
  else a ++ "/" ++ b

/-- Drop trailing '/' characters from a character list. -/
def stripTrailingSlashes (cs : List Char) : List Char :=
  (cs.reverse.dropWhile (fun c => c = '/')).reverse

/-- POSIX `os.path.dirname`: everything up to the last '/', kept verbatim
when it consists only of slashes and stripped of trailing slashes
otherwise; the empty string when there is no '/'. -/
def dirname (p : String) : String :=
  let cs := p.toList
  match cs.reverse.findIdx? (fun c => c = '/') with
  | none => ""
  | some j =>
    let head := cs.take (cs.length - j)
    if head.all (fun c => c = '/') then String.mk head
    else String.mk (stripTrailingSlashes head)

/-- Python `u.split('/')` (empty pieces kept), via an accumulator of the
characters of the current piece, in reverse. -/
def splitSlashAux : List Char → List Char → List String
  | [], cur => [String.mk cur.reverse]
  | c :: rest, cur =>
    if c = '/' then String.mk cur.reverse :: splitSlashAux rest []
    else splitSlashAux rest (c :: cur)

/-- Python `u.split('/')`. -/
def splitSlash (u : String) : List String :=
  splitSlashAux u.toList []

/-- Split a POSIX path into its nonempty components. -/
def splitParts (p : String) : List String :=
  (splitSlash p).filter (fun x => x ≠ "")

/-- Length of the common prefix of two component lists. -/
def commonLen : List String → List String → Nat
  | a :: as, b :: bs => if a = b then commonLen as bs + 1 else 0
  | _, _ => 0

/-- Join path components with '/' separators. -/
def joinSep : List String → String
  | [] => ""
  | [x] => x
  | x :: xs => x ++ "/" ++ joinSep xs

/-- POSIX `os.path.relpath path start` for absolute, already-normalised
arguments (the module only applies it to such paths): climb out of the
uncommon part of `start` with `..` components, then descend into `path`. -/
def os_relpath (path start : String) : String :=
  let pl := splitParts path
  let sl := splitParts start
  let i := commonLen sl pl
  let rel := (List.replicate (sl.length - i) "..") ++ pl.drop i
  if rel = [] then "." else joinSep rel

/-- Modelled from the spec: `uri_last`, imported from the repository's
`uriutil` module whose source is not in scope; §4.4 uses it as "the last
segment of the URI". Python's `uri.split('/')[-1]`. -/
def uri_last (u : String) : String :=
  ((splitSlash u).getLast?).getD ""

/-- A Python exception value, by class (and message or errno kind). -/
inductive PyErr where
  | nameError (n : String)
  | typeError (m : String)
  | valueError (m : String)
  | osError (kind : String)
  | indexError
deriving DecidableEq, Repr

instance {α : Type} [DecidableEq α] : DecidableEq (Except PyErr α) := by
  intro a b
  cases a <;> cases b
  case ok.ok x y =>
    exact if h : x = y then isTrue (congrArg Except.ok h)
      else isFalse (fun hh => h (Except.ok.inj hh))
  case error.error x y =>
    exact if h : x = y then isTrue (congrArg Except.error h)
      else isFalse (fun hh => h (Except.error.inj hh))
  case ok.error x y => exact isFalse (fun hh => Except.noConfusion hh)
  case error.ok x y => exact isFalse (fun hh => Except.noConfusion hh)

/-- Archive configuration: local mirror root plus the optional server-side
archive root (`None` in Python is `none`). -/
structure XNATArchive where
  rootdir : String
  archive_root : Option String
deriving DecidableEq, Repr

namespace XNATArchive

/-- The source's `rootlen`: `len(archive_root) if archive_root else 0`
(both `None` and the falsy empty string give 0). -/
def rootlen (a : XNATArchive) : Nat :=
  match a.archive_root with
  | none => 0
  | some r => if r = "" then 0 else r.length

/-- Embeds `XNATArchive.local_path`. The `else` branch of the source is
`raise ValueError('archive path %s does not start with root %s'
% archive_path, archive_root)`: by Python precedence the first constructor
argument is the two-placeholder format applied to the single string operand
`archive_path`, which raises
`TypeError: not enough arguments for format string` before the `ValueError`
(or the unbound name `archive_root`) is ever evaluated. -/
def local_path (a : XNATArchive) (archive_path : String) : Except PyErr String :=
  match a.archive_root with
  | none => .ok (os_join a.rootdir archive_path)
  | some root =>
    if root = "" then .ok (os_join a.rootdir archive_path)
    else if startswith archive_path root then
      .ok (os_join a.rootdir (sdrop archive_path a.rootlen))
    else
      .error (.typeError "not enough arguments for format string")

end XNATArchive

/-- One observable side effect: a single-file fetch (`fileobj._get`), a bulk
resource fetch (`resource._get`), a recursive directory copy
(`shutil.copytree`), a zip-member write, a zip extraction
(`ZipFile.extractall`), or a directory creation (`os.makedirs`). -/
inductive Event where
  | fetchFile (urn path : String)
  | bulkFetch (urn dest : String) (extract : Bool)
  | copytree (src dest : String)
  | zipWrite (zip entry : String)
  | extractZip (zip dir : String)
  | makedirs (dir : String)
deriving DecidableEq, Repr

/-- Local filesystem: the paths that exist as plain files and the paths
that exist as directories. -/
structure FS where
  files : List String
  dirs : List String
deriving DecidableEq, Repr

/-- Python `os.path.isfile`. -/
def FS.isfile (fs : FS) (p : String) : Bool :=
  decide (p ∈ fs.files)

/-- Python `os.path.exists` (file or directory). -/
def FS.pexists (fs : FS) (p : String) : Bool :=
  decide (p ∈ fs.files ∨ p ∈ fs.dirs)

/-- Mutable world threaded through the embedded operations: the filesystem
plus the trace of side effects performed so far, oldest first. -/
structure St where
  fs : FS
  events : List Event
deriving DecidableEq, Repr

/-- A remote file handle (spec §6): its local mirror path, its server-side
path, and an identifying urn for the trace. Its fetch operation lives in
the environment. -/
structure FileObj where
  urn : String
  local_path : String
  server_path : String
deriving DecidableEq, Repr

/-- One file descriptor of `resource.parent().xpath('xnat:file')`:
a label and a URI. -/
structure FileDesc where
  label : String
  uri : String
deriving DecidableEq, Repr

/-- A remote resource handle (spec §6): label, urn, uri, its file handles
(`resource.files()`), and the parent container's file descriptors used for
server-root resolution. -/
structure Resource where
  label : String
  urn : String
  uri : String
  files : List FileObj
  parent_files : List FileDesc
deriving DecidableEq, Repr

/-- Environment of collaborator oracles: outcome of a single-file fetch
(`none` = success), outcome of `os.makedirs` (`some kind` = an `OSError` of
that errno kind), the file paths a bulk fetch-and-extract reports, the zip
path a bulk packed fetch returns, and the entry names inside that zip. -/
structure Env where
  fetchErr : String → String → Option PyErr
  makedirsErr : String → Option String
  bulkExtract : String → String → List String
  bulkZip : String → String → String
  zipContents : String → List String

/-- `fileobj._get(path)`: the fetch is attempted (hence always traced); on
success the path comes to exist as a file, on failure the collaborator's
exception propagates. -/
def doFetch (env : Env) (f : FileObj) (path : String) (s : St) :
    Except PyErr Unit × St :=
  let s1 : St := { s with events := s.events ++ [Event.fetchFile f.urn path] }
  match env.fetchErr f.urn path with
  | some e => (.error e, s1)
  | none => (.ok (), { s1 with fs := { s1.fs with files := path :: s1.fs.files } })

/-- The `try: os.makedirs(dest_dir) except OSError: pass` of the source:
a failure of any `OSError` kind is swallowed and leaves the world as it
was; success creates the directory. -/
def tryMakedirs (env : Env) (d : String) (s : St) : St :=
  match env.makedirsErr d with
  | some _ => s
  | none =>
    { fs := { s.fs with dirs := d :: s.fs.dirs },
      events := s.events ++ [Event.makedirs d] }

/-- `shutil.copytree src dest`: raises `FileNotFoundError` when the source
does not exist, `FileExistsError` when the destination already does (the
destination of `copytree` must not exist); otherwise creates the
destination and copies every file under the source into it. -/
def doCopytree (src dest : String) (s : St) : Except PyErr Unit × St :=
  if ¬ s.fs.pexists src then (.error (.osError "ENOENT"), s)
  else if s.fs.pexists dest then (.error (.osError "EEXIST"), s)
  else
    let copies := (s.fs.files.filter (fun p => startswith p (src ++ "/"))).map
      (fun p => dest ++ sdrop p src.length)
    (.ok (),
      { fs := { files := s.fs.files ++ copies, dirs := dest :: s.fs.dirs },
        events := s.events ++ [Event.copytree src dest] })

/-- `resource._get(dest, extract=True)`: bulk fetch-and-extract; the
collaborator materialises and reports a list of file paths. -/
def bulkExtractOp (env : Env) (r : Resource) (dest : String) (s : St) :
    List String × St :=
  let paths := env.bulkExtract r.urn dest
  (paths,
    { fs := { s.fs with files := s.fs.files ++ paths },
      events := s.events ++ [Event.bulkFetch r.urn dest true] })

/-- `resource._get(dest, extract=False)`: bulk fetch of the packed (zip)
artifact; returns the zip's path. -/
def bulkZipOp (env : Env) (r : Resource) (dest : String) (s : St) :
    String × St :=
  let zippath := env.bulkZip r.urn dest
  (zippath,
    { fs := { s.fs with files := zippath :: s.fs.files },
      events := s.events ++ [Event.bulkFetch r.urn dest false] })

/-- `ZipFile(z).extractall(path=dir)`: each entry of the zip comes to exist
under `dir`. -/
def extractZipOp (env : Env) (zippath dir : String) (s : St) : St :=
  { fs := { s.fs with
      files := s.fs.files ++ (env.zipContents zippath).map (fun e => os_join dir e) },
    events := s.events ++ [Event.extractZip zippath dir] }

/-- Writing a zip: one member write per entry name, and the zip file itself
comes to exist. -/
def writeZip (zippath : String) (entries : List String) (s : St) : St :=
  { fs := { s.fs with files := zippath :: s.fs.files },
    events := s.events ++ entries.map (fun e => Event.zipWrite zippath e) }

namespace XNATArchive

/-- Embeds `XNATArchive._get_resource_server_root`: the directory of the
URI of the first parent file descriptor whose label matches the resource's;
Python raises `IndexError` on `file_uris[0]` when none matches. -/
def _get_resource_server_root (r : Resource) : Except PyErr String :=
  match (r.parent_files.filter (fun d => d.label = r.label)).map (fun d => d.uri) with
  | [] => .error .indexError
  | u :: _ => .ok (dirname u)

/-- Embeds `XNATArchive._get_resource_local_root`: path translation composed
with server-root resolution. -/
def _get_resource_local_root (a : XNATArchive) (r : Resource) : Except PyErr String :=
  match _get_resource_server_root r with
  | .error e => .error e
  | .ok sr => a.local_path sr

end XNATArchive

namespace MirrorXNATArchive

/-- Embeds `MirrorXNATArchive.get_file`: fetch when the local path is not a
file, then `return local_path` — an unbound name (neither a local variable
nor a global; methods are not in scope unqualified), so every call that
reaches the return raises `NameError`. -/
def get_file (env : Env) (fileobj : FileObj) (s : St) : Except PyErr String × St :=
  if s.fs.isfile fileobj.local_path then
    (.error (.nameError "local_path"), s)
  else
    match doFetch env fileobj fileobj.local_path s with
    | (.error e, s1) => (.error e, s1)
    | (.ok _, s1) => (.error (.nameError "local_path"), s1)

end MirrorXNATArchive

/-- Map the success value of an embedded operation's outcome. -/
def mapVal {α β : Type} (f : α → β) : Except PyErr α × St → Except PyErr β × St
  | (.error e, s) => (.error e, s)
  | (.ok x, s) => (.ok (f x), s)

/-- Result of `get_resource`: a list of file paths (`extract=True`) or the
path of a zip (`extract=False`). -/
inductive RGet where
  | pathList (paths : List String)
  | zipPath (p : String)
deriving DecidableEq, Repr

namespace MirrorXNATArchive

/-- The loop of `_fill_resource_holes` over the resource's file handles:
fetch each file whose local path is not yet a file, and collect every
file's local path in order. -/
def fillLoop (env : Env) : List FileObj → St → Except PyErr (List String) × St
  | [], s => (.ok [], s)
  | f :: rest, s =>
    let step : Except PyErr Unit × St :=
      if s.fs.isfile f.local_path then (.ok (), s)
      else doFetch env f f.local_path s
    match step with
    | (.error e, s1) => (.error e, s1)
    | (.ok _, s1) =>
      match fillLoop env rest s1 with
      | (.error e, s2) => (.error e, s2)
      | (.ok paths, s2) => (.ok (f.local_path :: paths), s2)

/-- Embeds `MirrorXNATArchive._fill_resource_holes`. -/
def _fill_resource_holes (env : Env) (r : Resource) (s : St) :
    Except PyErr (List String) × St :=
  fillLoop env r.files s

/-- Embeds `MirrorXNATArchive._get_resource_files`: resolve the resource's
local root; if it is an existing file, fill holes, otherwise bulk
fetch-and-extract into the local root. -/
def _get_resource_files (env : Env) (a : XNATArchive) (r : Resource) (s : St) :
    Except PyErr (List String) × St :=
  match XNATArchive._get_resource_local_root a r with
  | .error e => (.error e, s)
  | .ok root =>
    if s.fs.isfile root then _fill_resource_holes env r s
    else
      let pr := bulkExtractOp env r root s
      (.ok pr.1, pr.2)

/-- Embeds `MirrorXNATArchive._copy_resource`: `shutil.copytree` of the
resource's local root to `dest_dir`, then `_get_resource_files`, then each
produced path rebased onto `dest_dir` via `os.path.relpath`. -/
def _copy_resource (env : Env) (a : XNATArchive) (r : Resource) (dest_dir : String)
    (s : St) : Except PyErr (List String) × St :=
  match XNATArchive._get_resource_local_root a r with
  | .error e => (.error e, s)
  | .ok root =>
    match doCopytree root dest_dir s with
    | (.error e, s1) => (.error e, s1)
    | (.ok _, s1) =>
      match _get_resource_files env a r s1 with
      | (.error e, s2) => (.error e, s2)
      | (.ok ps, s2) =>
        (.ok (ps.map (fun f => os_join dest_dir (os_relpath f root))), s2)

/-- Embeds `MirrorXNATArchive._zip_resource`: resolve the local root;
`makedirs` on the destination with every `OSError` suppressed; if the local
root is an existing file, fill holes and zip the resulting paths (entries
relative to the root) under `<dest_dir>/<uri_last>.zip`; otherwise bulk
fetch the packed zip to `dest_dir`, extract it beside the local root
(its `dirname`), and return the fetched zip's path. -/
def _zip_resource (env : Env) (a : XNATArchive) (r : Resource) (dest_dir : String)
    (s : St) : Except PyErr String × St :=
  match XNATArchive._get_resource_local_root a r with
  | .error e => (.error e, s)
  | .ok root =>
    let s1 := tryMakedirs env dest_dir s
    if s1.fs.isfile root then
      match _fill_resource_holes env r s1 with
      | (.error e, s2) => (.error e, s2)
      | (.ok paths, s2) =>
        let zippath := os_join dest_dir (uri_last r.uri ++ ".zip")
        (.ok zippath, writeZip zippath (paths.map (fun p => os_relpath p root)) s2)
    else
      let pr := bulkZipOp env r dest_dir s1
      (.ok pr.1, extractZipOp env pr.1 (dirname root) pr.2)

/-- Embeds `MirrorXNATArchive.get_resource`; a present-but-empty `dest_dir`
string is falsy in Python, so it selects the no-`dest_dir` branches. -/
def get_resource (env : Env) (a : XNATArchive) (r : Resource) (extract : Bool)
    (dest_dir : Option String) (s : St) : Except PyErr RGet × St :=
  if extract then
    match dest_dir with
    | some d =>
      if d = "" then mapVal RGet.pathList (_get_resource_files env a r s)
      else mapVal RGet.pathList (_copy_resource env a r d s)
    | none => mapVal RGet.pathList (_get_resource_files env a r s)
  else
    let d := match dest_dir with
      | some d => if d = "" then "." else d
      | none => "."
    mapVal RGet.zipPath (_zip_resource env a r d s)

end MirrorXNATArchive

/-- Concrete all-success environment for witnesses. -/
def envOK : Env :=
  { fetchErr := fun _ _ => none
    makedirsErr := fun _ => none
    bulkExtract := fun _ dest => [os_join dest "a.dcm", os_join dest "b.dcm"]
    bulkZip := fun _ dest => os_join dest "R1.zip"
    zipContents := fun _ => ["R1/a.dcm", "R1/b.dcm"] }

/-- Concrete file handle. -/
def f1 : FileObj := ⟨"f1", "/mirror/s1/R1/a.dcm", "/archive/s1/R1/a.dcm"⟩

/-- Concrete file handle. -/
def f2 : FileObj := ⟨"f2", "/mirror/s1/R1/b.dcm", "/archive/s1/R1/b.dcm"⟩

/-- Concrete archive configuration (trailing slash on the archive root, so
prefix stripping leaves a relative remainder). -/
def arch1 : XNATArchive := ⟨"/mirror", some "/archive/"⟩

/-- Concrete resource whose local root resolves to `/mirror/s1/R1`. -/
def res1 : Resource :=
  ⟨"R1", "urnR1", "/data/experiments/E1/resources/R1", [f1, f2],
   [⟨"R1", "/archive/s1/R1/a.dcm"⟩]⟩

/-- Empty initial world. -/
def s0 : St := ⟨⟨[], []⟩, []⟩

/-- World in which `f1` is already mirrored but `f2` is not. -/
def sHalf : St := ⟨⟨["/mirror/s1/R1/a.dcm"], []⟩, []⟩

/-- World in which the resource's local root exists as a directory and no
destination directory exists yet. -/
def sDir : St := ⟨⟨[], ["/mirror/s1/R1"]⟩, []⟩

/-- World in which both the resource's local root and the destination
directory `/out` already exist. -/
def sOut : St := ⟨⟨[], ["/mirror/s1/R1", "/out"]⟩, []⟩

/-- Environment in which every `os.makedirs` fails with a permission
`OSError` (`EACCES`) — not a directory-already-exists condition. -/
def envAcc : Env := { envOK with makedirsErr := fun _ => some "EACCES" }

/-- Environment in which every single-file fetch fails with a network
fault. -/
def envBad : Env := { envOK with fetchErr := fun _ _ => some (PyErr.osError "ENETDOWN") }

/-- Claim C2 counter-evaluation: with archive root `/archive` and local root
`/mirror`, translating `/archive/subj1/scan1.dcm` yields
`/subj1/scan1.dcm`, not `/mirror/subj1/scan1.dcm`: the stripped remainder
begins with '/', so `os.path.join` discards the local root entirely. -/
theorem local_path_join_drops_root :
    XNATArchive.local_path ⟨"/mirror", some "/archive"⟩ "/archive/subj1/scan1.dcm"
      = Except.ok "/subj1/scan1.dcm" ∧
    XNATArchive.local_path ⟨"/mirror", some "/archive"⟩ "/archive/subj1/scan1.dcm"
      ≠ Except.ok "/mirror/subj1/scan1.dcm" := by
  exact ⟨by decide, by decide⟩

/-- Claim C3 counter-evaluation: a path outside the configured archive root
makes `local_path` raise `TypeError` (from the malformed `%` application in
the `raise` statement), not the configuration-fault `ValueError` the raise
statement names. -/
theorem local_path_mismatch_type_error :
    XNATArchive.local_path ⟨"/mirror", some "/archive"⟩ "/data/x.dcm"
      = Except.error (PyErr.typeError "not enough arguments for format string") ∧
    ∀ m, XNATArchive.local_path ⟨"/mirror", some "/archive"⟩ "/data/x.dcm"
      ≠ Except.error (PyErr.valueError m) := by
  refine ⟨by decide, ?_⟩
  intro m h
  simp [XNATArchive.local_path, startswith] at h

/-- Claim C1 counter-evaluation: on a file absent from the mirror,
`MirrorXNATArchive.get_file` performs exactly one fetch, and a second call
performs none — but both calls end in `NameError` (`return local_path`
references an unbound name) instead of returning the file's local path. -/
theorem mirror_get_file_fetch_once_but_name_error :
    (MirrorXNATArchive.get_file envOK f1 s0).1
        = Except.error (PyErr.nameError "local_path") ∧
    ((MirrorXNATArchive.get_file envOK f1 s0).2).events
        = [Event.fetchFile "f1" "/mirror/s1/R1/a.dcm"] ∧
    (MirrorXNATArchive.get_file envOK f1 ((MirrorXNATArchive.get_file envOK f1 s0).2)).1
        = Except.error (PyErr.nameError "local_path") ∧
    (MirrorXNATArchive.get_file envOK f1 ((MirrorXNATArchive.get_file envOK f1 s0).2)).2
        = (MirrorXNATArchive.get_file envOK f1 s0).2 := by
  decide

/-- A successful single-file fetch adds exactly the target path to the
files on disk and appends exactly its fetch event. -/
theorem doFetch_ok (env : Env) (f : FileObj) (path : String) (s : St)
    (hf : env.fetchErr f.urn path = none) :
    doFetch env f path s
      = ((Except.ok ()),
         ⟨⟨path :: s.fs.files, s.fs.dirs⟩,
          s.events ++ [Event.fetchFile f.urn path]⟩) := by
  simp [doFetch, hf]

/-- The loop of `_fill_resource_holes`, characterised: with all fetches
succeeding it returns every file's local path in the order of the file
list; it never touches directories; it never removes a file from disk; and
every side effect it performs is a fetch of a listed file whose local path
was absent from disk. -/
theorem fillLoop_spec (files : List FileObj) : ∀ (env : Env) (s : St),
    (∀ f ∈ files, env.fetchErr f.urn f.local_path = none) →
    (MirrorXNATArchive.fillLoop env files s).1
        = Except.ok (files.map (fun f => f.local_path)) ∧
    ((MirrorXNATArchive.fillLoop env files s).2).fs.dirs = s.fs.dirs ∧
    (∀ p ∈ s.fs.files, p ∈ ((MirrorXNATArchive.fillLoop env files s).2).fs.files) ∧
    (∃ tr, ((MirrorXNATArchive.fillLoop env files s).2).events = s.events ++ tr ∧
      ∀ e ∈ tr, ∃ f, f ∈ files ∧ e = Event.fetchFile f.urn f.local_path ∧
        f.local_path ∉ s.fs.files) := by
  induction files with
  | nil =>
    intro env s _
    exact ⟨rfl, rfl, fun p hp => hp, ⟨[], by simp [MirrorXNATArchive.fillLoop], by simp⟩⟩
  | cons f rest ih =>
    intro env s hok
    have hf : env.fetchErr f.urn f.local_path = none := hok f (by simp)
    have hok' : ∀ g ∈ rest, env.fetchErr g.urn g.local_path = none :=
      fun g hg => hok g (List.mem_cons_of_mem _ hg)
    cases hc : s.fs.isfile f.local_path with
    | true =>
      have hmem : f.local_path ∈ s.fs.files := by
        simpa [FS.isfile] using hc
      obtain ⟨h1, h2, h3, tr, htr, hev⟩ := ih env s hok'
      rcases hrec : MirrorXNATArchive.fillLoop env rest s with ⟨v, s2⟩
      rw [hrec] at h1 h2 h3 htr
      have h1' : v = Except.ok (rest.map fun g => g.local_path) := h1
      subst h1'
      have hred : MirrorXNATArchive.fillLoop env (f :: rest) s
          = (Except.ok (f.local_path :: rest.map fun g => g.local_path), s2) := by
        simp [MirrorXNATArchive.fillLoop, hc, hrec]
      refine ⟨?_, ?_, ?_, ⟨tr, ?_, ?_⟩⟩
      · rw [hred]; simp
      · rw [hred]; exact h2
      · intro p hp
        rw [hred]
        exact h3 p hp
      · rw [hred]; exact htr
      · intro e he
        obtain ⟨g, hg, hge, hgn⟩ := hev e he
        exact ⟨g, List.mem_cons_of_mem _ hg, hge, hgn⟩
    | false =>
      have hmem : f.local_path ∉ s.fs.files := by
        simpa [FS.isfile] using hc
      obtain ⟨h1, h2, h3, tr, htr, hev⟩ := ih env
        ⟨⟨f.local_path :: s.fs.files, s.fs.dirs⟩,
         s.events ++ [Event.fetchFile f.urn f.local_path]⟩ hok'
      rcases hrec : MirrorXNATArchive.fillLoop env rest
          ⟨⟨f.local_path :: s.fs.files, s.fs.dirs⟩,
           s.events ++ [Event.fetchFile f.urn f.local_path]⟩ with ⟨v, s2⟩
      rw [hrec] at h1 h2 h3 htr
      have h1' : v = Except.ok (rest.map fun g => g.local_path) := h1
      subst h1'
      have hred : MirrorXNATArchive.fillLoop env (f :: rest) s
          = (Except.ok (f.local_path :: rest.map fun g => g.local_path), s2) := by
        simp [MirrorXNATArchive.fillLoop, hc, doFetch_ok env f f.local_path s hf, hrec]
      refine ⟨?_, ?_, ?_, ⟨Event.fetchFile f.urn f.local_path :: tr, ?_, ?_⟩⟩
      · rw [hred]; simp
      · rw [hred]; exact h2
      · intro p hp
        rw [hred]
        exact h3 p (List.mem_cons_of_mem _ hp)
      · rw [hred, htr]
        simp
      · intro e he
        rcases List.mem_cons.mp he with he | he
        · exact ⟨f, List.mem_cons_self f rest, he, hmem⟩
        · obtain ⟨g, hg, hge, hgn⟩ := hev e he
          exact ⟨g, List.mem_cons_of_mem _ hg, hge,
            fun hcontra => hgn (List.mem_cons_of_mem _ hcontra)⟩

/-- Claim C4: `_fill_resource_holes` returns the local path of every file of
the resource, in correspondence with the resource's file list; it fetches
only files whose local path is absent from disk (never one already
present); it deletes nothing (files on disk stay, directories untouched). -/
theorem fill_resource_holes_correct (env : Env) (r : Resource) (s : St)
    (hok : ∀ f ∈ r.files, env.fetchErr f.urn f.local_path = none) :
    (MirrorXNATArchive._fill_resource_holes env r s).1
        = Except.ok (r.files.map (fun f => f.local_path)) ∧
    ((MirrorXNATArchive._fill_resource_holes env r s).2).fs.dirs = s.fs.dirs ∧
    (∀ p ∈ s.fs.files, p ∈ ((MirrorXNATArchive._fill_resource_holes env r s).2).fs.files) ∧
    (∃ tr, ((MirrorXNATArchive._fill_resource_holes env r s).2).events = s.events ++ tr ∧
      ∀ e ∈ tr, ∃ f, f ∈ r.files ∧ e = Event.fetchFile f.urn f.local_path ∧
        f.local_path ∉ s.fs.files) :=
  fillLoop_spec r.files env s hok

/-- Witness for C4 at a concrete input: `f1` already mirrored, `f2` absent. -/
theorem fill_resource_holes_correct_witness :
    (∀ f ∈ res1.files, envOK.fetchErr f.urn f.local_path = none) ∧
    ((MirrorXNATArchive._fill_resource_holes envOK res1 sHalf).1
        = Except.ok (res1.files.map (fun f => f.local_path)) ∧
    ((MirrorXNATArchive._fill_resource_holes envOK res1 sHalf).2).fs.dirs = sHalf.fs.dirs ∧
    (∀ p ∈ sHalf.fs.files,
        p ∈ ((MirrorXNATArchive._fill_resource_holes envOK res1 sHalf).2).fs.files) ∧
    (∃ tr, ((MirrorXNATArchive._fill_resource_holes envOK res1 sHalf).2).events
          = sHalf.events ++ tr ∧
      ∀ e ∈ tr, ∃ f, f ∈ res1.files ∧ e = Event.fetchFile f.urn f.local_path ∧
        f.local_path ∉ sHalf.fs.files)) :=
  ⟨by decide, fill_resource_holes_correct envOK res1 sHalf (by decide)⟩

/-- `tryMakedirs` never changes which files exist. -/
theorem tryMakedirs_files (env : Env) (d : String) (s : St) :
    ((tryMakedirs env d s).fs).files = s.fs.files := by
  cases h : env.makedirsErr d <;> simp [tryMakedirs, h]

/-- `tryMakedirs` either leaves the world alone (a suppressed `OSError`) or
creates exactly the requested directory. -/
theorem tryMakedirs_cases (env : Env) (d : String) (s : St) :
    (env.makedirsErr d).isSome = true ∧ tryMakedirs env d s = s ∨
    (env.makedirsErr d).isSome = false ∧ tryMakedirs env d s
      = ⟨⟨s.fs.files, d :: s.fs.dirs⟩, s.events ++ [Event.makedirs d]⟩ := by
  cases h : env.makedirsErr d
  · right
    exact ⟨by simp [h], by simp [tryMakedirs, h]⟩
  · left
    exact ⟨by simp [h], by simp [tryMakedirs, h]⟩

/-- A `copytree` whose source exists and whose destination does not
succeeds, creating the destination directory, copying every file under the
source, and tracing exactly one copy event. -/
theorem doCopytree_ok (src dest : String) (s : St)
    (hsrc : s.fs.pexists src = true) (hdest : s.fs.pexists dest = false) :
    doCopytree src dest s
      = ((Except.ok ()),
         ⟨⟨s.fs.files ++ ((s.fs.files.filter (fun p => startswith p (src ++ "/"))).map
              (fun p => dest ++ sdrop p src.length)),
           dest :: s.fs.dirs⟩,
          s.events ++ [Event.copytree src dest]⟩) := by
  simp [doCopytree, hsrc, hdest]

/-- The hole-filling loop only appends to the event trace. -/
theorem fillLoop_events_mono (files : List FileObj) : ∀ (env : Env) (s : St),
    ∃ tr, ((MirrorXNATArchive.fillLoop env files s).2).events = s.events ++ tr := by
  induction files with
  | nil =>
    intro env s
    exact ⟨[], by simp [MirrorXNATArchive.fillLoop]⟩
  | cons f rest ih =>
    intro env s
    cases hc : s.fs.isfile f.local_path with
    | true =>
      obtain ⟨tr, htr⟩ := ih env s
      rcases hrec : MirrorXNATArchive.fillLoop env rest s with ⟨v, s2⟩
      rw [hrec] at htr
      refine ⟨tr, ?_⟩
      cases v <;> simp [MirrorXNATArchive.fillLoop, hc, hrec] <;> exact htr
    | false =>
      cases hfe : env.fetchErr f.urn f.local_path with
      | some e =>
        refine ⟨[Event.fetchFile f.urn f.local_path], ?_⟩
        simp [MirrorXNATArchive.fillLoop, hc, doFetch, hfe]
      | none =>
        obtain ⟨tr, htr⟩ := ih env
          ⟨⟨f.local_path :: s.fs.files, s.fs.dirs⟩,
           s.events ++ [Event.fetchFile f.urn f.local_path]⟩
        rcases hrec : MirrorXNATArchive.fillLoop env rest
            ⟨⟨f.local_path :: s.fs.files, s.fs.dirs⟩,
             s.events ++ [Event.fetchFile f.urn f.local_path]⟩ with ⟨v, s2⟩
        rw [hrec] at htr
        refine ⟨Event.fetchFile f.urn f.local_path :: tr, ?_⟩
        cases v <;>
          simp [MirrorXNATArchive.fillLoop, hc, doFetch_ok env f f.local_path s hfe, hrec] <;>
          simpa using htr

/-- `_get_resource_files` only appends to the event trace. -/
theorem get_resource_files_events_mono (env : Env) (a : XNATArchive) (r : Resource)
    (s : St) :
    ∃ tr, ((MirrorXNATArchive._get_resource_files env a r s).2).events
      = s.events ++ tr := by
  cases hroot : XNATArchive._get_resource_local_root a r with
  | error e =>
    exact ⟨[], by simp [MirrorXNATArchive._get_resource_files, hroot]⟩
  | ok root =>
    cases hc : s.fs.isfile root with
    | true =>
      obtain ⟨tr, htr⟩ := fillLoop_events_mono r.files env s
      refine ⟨tr, ?_⟩
      simpa [MirrorXNATArchive._get_resource_files, hroot, hc,
        MirrorXNATArchive._fill_resource_holes] using htr
    | false =>
      refine ⟨[Event.bulkFetch r.urn root true], ?_⟩
      simp [MirrorXNATArchive._get_resource_files, hroot, hc, bulkExtractOp]

/-- Claim C5: `_get_resource_files` dispatches on mirror state: when the
resource's local root is an existing file it delegates to
`_fill_resource_holes` (returning every file's local path, with only
single-file fetch events); otherwise it performs the resource's bulk
fetch-and-extract into the local root (`extract=True`) and returns exactly
the paths that operation reports. -/
theorem get_resource_files_dispatch (env : Env) (a : XNATArchive) (r : Resource)
    (s : St) (root : String)
    (hroot : XNATArchive._get_resource_local_root a r = Except.ok root)
    (hok : ∀ f ∈ r.files, env.fetchErr f.urn f.local_path = none) :
    (s.fs.isfile root = true →
      MirrorXNATArchive._get_resource_files env a r s
        = MirrorXNATArchive._fill_resource_holes env r s ∧
      (MirrorXNATArchive._get_resource_files env a r s).1
        = Except.ok (r.files.map fun f => f.local_path) ∧
      (∃ tr, ((MirrorXNATArchive._get_resource_files env a r s).2).events
          = s.events ++ tr ∧
        ∀ e ∈ tr, ∃ f, f ∈ r.files ∧ e = Event.fetchFile f.urn f.local_path)) ∧
    (s.fs.isfile root = false →
      (MirrorXNATArchive._get_resource_files env a r s).1
        = Except.ok (env.bulkExtract r.urn root) ∧
      ((MirrorXNATArchive._get_resource_files env a r s).2).events
        = s.events ++ [Event.bulkFetch r.urn root true]) := by
  constructor
  · intro hc
    have hdeleg : MirrorXNATArchive._get_resource_files env a r s
        = MirrorXNATArchive._fill_resource_holes env r s := by
      simp [MirrorXNATArchive._get_resource_files, hroot, hc]
    obtain ⟨h1, _, _, tr, htr, hev⟩ := fillLoop_spec r.files env s hok
    refine ⟨hdeleg, ?_, tr, ?_, ?_⟩
    · rw [hdeleg]; exact h1
    · rw [hdeleg]; exact htr
    · intro e he
      obtain ⟨f, hf, hfe, _⟩ := hev e he
      exact ⟨f, hf, hfe⟩
  · intro hc
    constructor
    · simp [MirrorXNATArchive._get_resource_files, hroot, hc, bulkExtractOp]
    · simp [MirrorXNATArchive._get_resource_files, hroot, hc, bulkExtractOp]

/-- Witness for C5 at a concrete input (resource root not an existing file,
so the bulk branch of the dispatch fires). -/
theorem get_resource_files_dispatch_witness :
    (XNATArchive._get_resource_local_root arch1 res1 = Except.ok "/mirror/s1/R1" ∧
     ∀ f ∈ res1.files, envOK.fetchErr f.urn f.local_path = none) ∧
    ((sHalf.fs.isfile "/mirror/s1/R1" = true →
      MirrorXNATArchive._get_resource_files envOK arch1 res1 sHalf
        = MirrorXNATArchive._fill_resource_holes envOK res1 sHalf ∧
      (MirrorXNATArchive._get_resource_files envOK arch1 res1 sHalf).1
        = Except.ok (res1.files.map fun f => f.local_path) ∧
      (∃ tr, ((MirrorXNATArchive._get_resource_files envOK arch1 res1 sHalf).2).events
          = sHalf.events ++ tr ∧
        ∀ e ∈ tr, ∃ f, f ∈ res1.files ∧ e = Event.fetchFile f.urn f.local_path)) ∧
    (sHalf.fs.isfile "/mirror/s1/R1" = false →
      (MirrorXNATArchive._get_resource_files envOK arch1 res1 sHalf).1
        = Except.ok (envOK.bulkExtract res1.urn "/mirror/s1/R1") ∧
      ((MirrorXNATArchive._get_resource_files envOK arch1 res1 sHalf).2).events
        = sHalf.events ++ [Event.bulkFetch res1.urn "/mirror/s1/R1" true])) :=
  ⟨⟨by decide, by decide⟩,
   get_resource_files_dispatch envOK arch1 res1 sHalf "/mirror/s1/R1"
     (by decide) (by decide)⟩

/-- Claim C6: incremental-mirror zip building for a resource whose local
root is not an existing file delegates to the resource's bulk fetch with
`extract=False`: it returns the path of the fetched zip itself (no local
zip writing occurs — the only effects beyond optional destination-directory
creation are the bulk fetch and the extraction of the fetched zip into the
directory containing the resource's local root). -/
theorem zip_resource_unpacked_delegates (env : Env) (a : XNATArchive) (r : Resource)
    (d : String) (s : St) (root : String)
    (hroot : XNATArchive._get_resource_local_root a r = Except.ok root)
    (hd : d ≠ "")
    (hnf : s.fs.isfile root = false) :
    (MirrorXNATArchive.get_resource env a r false (some d) s).1
        = Except.ok (RGet.zipPath (env.bulkZip r.urn d)) ∧
    (∃ mk, (mk = [] ∨ mk = [Event.makedirs d]) ∧
      ((MirrorXNATArchive.get_resource env a r false (some d) s).2).events
        = s.events ++ mk ++ [Event.bulkFetch r.urn d false,
            Event.extractZip (env.bulkZip r.urn d) (dirname root)]) := by
  have hnf' : root ∉ s.fs.files := by simpa [FS.isfile] using hnf
  cases h : env.makedirsErr d with
  | some k =>
    constructor
    · simp [MirrorXNATArchive.get_resource, hd, MirrorXNATArchive._zip_resource, hroot,
        tryMakedirs, h, FS.isfile, hnf', bulkZipOp, extractZipOp, mapVal]
    · refine ⟨[], Or.inl rfl, ?_⟩
      simp [MirrorXNATArchive.get_resource, hd, MirrorXNATArchive._zip_resource, hroot,
        tryMakedirs, h, FS.isfile, hnf', bulkZipOp, extractZipOp, mapVal]
  | none =>
    constructor
    · simp [MirrorXNATArchive.get_resource, hd, MirrorXNATArchive._zip_resource, hroot,
        tryMakedirs, h, FS.isfile, hnf', bulkZipOp, extractZipOp, mapVal]
    · refine ⟨[Event.makedirs d], Or.inr rfl, ?_⟩
      simp [MirrorXNATArchive.get_resource, hd, MirrorXNATArchive._zip_resource, hroot,
        tryMakedirs, h, FS.isfile, hnf', bulkZipOp, extractZipOp, mapVal]

/-- Witness for C6 at a concrete input. -/
theorem zip_resource_unpacked_delegates_witness :
    (XNATArchive._get_resource_local_root arch1 res1 = Except.ok "/mirror/s1/R1" ∧
     ("/out" : String) ≠ "" ∧
     s0.fs.isfile "/mirror/s1/R1" = false) ∧
    ((MirrorXNATArchive.get_resource envOK arch1 res1 false (some "/out") s0).1
        = Except.ok (RGet.zipPath (envOK.bulkZip res1.urn "/out")) ∧
    (∃ mk, (mk = [] ∨ mk = [Event.makedirs "/out"]) ∧
      ((MirrorXNATArchive.get_resource envOK arch1 res1 false (some "/out") s0).2).events
        = s0.events ++ mk ++ [Event.bulkFetch res1.urn "/out" false,
            Event.extractZip (envOK.bulkZip res1.urn "/out") (dirname "/mirror/s1/R1")])) :=
  ⟨⟨by decide, by decide, by decide⟩,
   zip_resource_unpacked_delegates envOK arch1 res1 "/out" s0 "/mirror/s1/R1"
     (by decide) (by decide) (by decide)⟩

/-- Claim C8: in incremental-mirror `get_resource` with `extract=True` and a
`dest_dir`, the recursive copy of the resource's entire local root tree
into `dest_dir` is the first side effect — it precedes any hole-filling or
bulk fetch performed by `_get_resource_files` — and the returned list is
each produced path rebased onto `dest_dir` by relative-path substitution
against the local root. -/
theorem copy_resource_copies_before_fill (env : Env) (a : XNATArchive) (r : Resource)
    (d : String) (s : St) (root : String) (ps : List String)
    (hroot : XNATArchive._get_resource_local_root a r = Except.ok root)
    (hd : d ≠ "")
    (hsrc : s.fs.pexists root = true)
    (hdest : s.fs.pexists d = false)
    (hfill : (MirrorXNATArchive._get_resource_files env a r
        ((doCopytree root d s).2)).1 = Except.ok ps) :
    (MirrorXNATArchive.get_resource env a r true (some d) s).1
        = Except.ok (RGet.pathList (ps.map fun f => os_join d (os_relpath f root))) ∧
    (∃ tr, ((MirrorXNATArchive.get_resource env a r true (some d) s).2).events
        = s.events ++ Event.copytree root d :: tr) := by
  have hcopy := doCopytree_ok root d s hsrc hdest
  rcases hrec : MirrorXNATArchive._get_resource_files env a r
      ((doCopytree root d s).2) with ⟨v, s2⟩
  rw [hrec] at hfill
  have hv : v = Except.ok ps := hfill
  subst hv
  obtain ⟨tr2, htr2⟩ := get_resource_files_events_mono env a r ((doCopytree root d s).2)
  rw [hrec] at htr2
  rw [hcopy] at hrec htr2
  simp only [Prod.snd] at hrec htr2
  have hred : MirrorXNATArchive.get_resource env a r true (some d) s
      = (Except.ok (RGet.pathList (ps.map fun f => os_join d (os_relpath f root))), s2) := by
    simp [MirrorXNATArchive.get_resource, hd, MirrorXNATArchive._copy_resource, hroot,
      hcopy, hrec, mapVal]
  refine ⟨by rw [hred], tr2, ?_⟩
  rw [hred]
  rw [htr2]
  simp

/-- Witness for C8 at a concrete input (resource root exists as a directory,
`/out` does not yet exist, the fill step reports the bulk-extract paths). -/
theorem copy_resource_copies_before_fill_witness :
    (XNATArchive._get_resource_local_root arch1 res1 = Except.ok "/mirror/s1/R1" ∧
     ("/out" : String) ≠ "" ∧
     sDir.fs.pexists "/mirror/s1/R1" = true ∧
     sDir.fs.pexists "/out" = false ∧
     (MirrorXNATArchive._get_resource_files envOK arch1 res1
        ((doCopytree "/mirror/s1/R1" "/out" sDir).2)).1
       = Except.ok ["/mirror/s1/R1/a.dcm", "/mirror/s1/R1/b.dcm"]) ∧
    ((MirrorXNATArchive.get_resource envOK arch1 res1 true (some "/out") sDir).1
        = Except.ok (RGet.pathList
            (["/mirror/s1/R1/a.dcm", "/mirror/s1/R1/b.dcm"].map
              fun f => os_join "/out" (os_relpath f "/mirror/s1/R1"))) ∧
    (∃ tr, ((MirrorXNATArchive.get_resource envOK arch1 res1 true (some "/out") sDir).2).events
        = sDir.events ++ Event.copytree "/mirror/s1/R1" "/out" :: tr)) :=
  ⟨⟨by decide, by decide, by decide, by decide, by decide⟩,
   copy_resource_copies_before_fill envOK arch1 res1 "/out" sDir "/mirror/s1/R1"
     ["/mirror/s1/R1/a.dcm", "/mirror/s1/R1/b.dcm"]
     (by decide) (by decide) (by decide) (by decide) (by decide)⟩

/-- Claim C10: incremental-mirror `get_resource` with `extract=True` and an
already-existing `dest_dir` fails inside `shutil.copytree` (whose
destination must not exist) before any hole-filling or bulk fetch, leaving
the world — mirror and event trace — unchanged; when the resource's local
root exists the failure is precisely the destination-exists `OSError`. -/
theorem copy_resource_existing_dest_fails (env : Env) (a : XNATArchive) (r : Resource)
    (d : String) (s : St) (root : String)
    (hroot : XNATArchive._get_resource_local_root a r = Except.ok root)
    (hd : d ≠ "")
    (hdest : s.fs.pexists d = true) :
    (∃ e, (MirrorXNATArchive.get_resource env a r true (some d) s).1 = Except.error e) ∧
    (MirrorXNATArchive.get_resource env a r true (some d) s).2 = s ∧
    (s.fs.pexists root = true →
      (MirrorXNATArchive.get_resource env a r true (some d) s).1
        = Except.error (PyErr.osError "EEXIST")) := by
  cases hsrc : s.fs.pexists root with
  | true =>
    have hcop : doCopytree root d s = (.error (.osError "EEXIST"), s) := by
      simp [doCopytree, hsrc, hdest]
    refine ⟨⟨PyErr.osError "EEXIST", ?_⟩, ?_, fun _ => ?_⟩ <;>
      simp [MirrorXNATArchive.get_resource, hd, MirrorXNATArchive._copy_resource,
        hroot, hcop, mapVal]
  | false =>
    have hcop : doCopytree root d s = (.error (.osError "ENOENT"), s) := by
      simp [doCopytree, hsrc]
    refine ⟨⟨PyErr.osError "ENOENT", ?_⟩, ?_, fun hcontra => ?_⟩
    · simp [MirrorXNATArchive.get_resource, hd, MirrorXNATArchive._copy_resource,
        hroot, hcop, mapVal]
    · simp [MirrorXNATArchive.get_resource, hd, MirrorXNATArchive._copy_resource,
        hroot, hcop, mapVal]
    · exact absurd hcontra (by simp [hsrc])

/-- Witness for C10 at a concrete input (`/out` already exists). -/
theorem copy_resource_existing_dest_fails_witness :
    (XNATArchive._get_resource_local_root arch1 res1 = Except.ok "/mirror/s1/R1" ∧
     ("/out" : String) ≠ "" ∧
     sOut.fs.pexists "/out" = true) ∧
    ((∃ e, (MirrorXNATArchive.get_resource envOK arch1 res1 true (some "/out") sOut).1
        = Except.error e) ∧
    (MirrorXNATArchive.get_resource envOK arch1 res1 true (some "/out") sOut).2 = sOut ∧
    (sOut.fs.pexists "/mirror/s1/R1" = true →
      (MirrorXNATArchive.get_resource envOK arch1 res1 true (some "/out") sOut).1
        = Except.error (PyErr.osError "EEXIST"))) :=
  ⟨⟨by decide, by decide, by decide⟩,
   copy_resource_existing_dest_fails envOK arch1 res1 "/out" sOut "/mirror/s1/R1"
     (by decide) (by decide) (by decide)⟩

/-- The hole-filling loop reads only the fetch oracle and the set of files
on disk: environments agreeing on `fetchErr` and states agreeing on
`fs.files` give equal outcome values and equal resulting file sets. -/
theorem fillLoop_congr (files : List FileObj) : ∀ (env1 env2 : Env) (s t : St),
    env1.fetchErr = env2.fetchErr → s.fs.files = t.fs.files →
    (MirrorXNATArchive.fillLoop env1 files s).1
      = (MirrorXNATArchive.fillLoop env2 files t).1 ∧
    ((MirrorXNATArchive.fillLoop env1 files s).2).fs.files
      = ((MirrorXNATArchive.fillLoop env2 files t).2).fs.files := by
  induction files with
  | nil =>
    intro env1 env2 s t _ hfl
    exact ⟨rfl, hfl⟩
  | cons f rest ih =>
    intro env1 env2 s t henv hfl
    by_cases hm : f.local_path ∈ s.fs.files
    · have hmt : f.local_path ∈ t.fs.files := hfl ▸ hm
      obtain ⟨h1, h2⟩ := ih env1 env2 s t henv hfl
      rcases hra : MirrorXNATArchive.fillLoop env1 rest s with ⟨va, sa⟩
      rcases hrb : MirrorXNATArchive.fillLoop env2 rest t with ⟨vb, sb⟩
      rw [hra, hrb] at h1 h2
      have hv : va = vb := h1
      have hfls : sa.fs.files = sb.fs.files := h2
      subst hv
      cases va with
      | error e =>
        exact ⟨by simp [MirrorXNATArchive.fillLoop, FS.isfile, hm, hmt, hra, hrb],
               by simp [MirrorXNATArchive.fillLoop, FS.isfile, hm, hmt, hra, hrb, hfls]⟩
      | ok pa =>
        exact ⟨by simp [MirrorXNATArchive.fillLoop, FS.isfile, hm, hmt, hra, hrb],
               by simp [MirrorXNATArchive.fillLoop, FS.isfile, hm, hmt, hra, hrb, hfls]⟩
    · have hmt : f.local_path ∉ t.fs.files := hfl ▸ hm
      cases hfe : env1.fetchErr f.urn f.local_path with
      | some e =>
        have hfe2 : env2.fetchErr f.urn f.local_path = some e := henv ▸ hfe
        constructor <;>
          simp [MirrorXNATArchive.fillLoop, FS.isfile, hm, hmt, doFetch, hfe, hfe2, hfl]
      | none =>
        have hfe2 : env2.fetchErr f.urn f.local_path = none := henv ▸ hfe
        obtain ⟨h1, h2⟩ := ih env1 env2
          ⟨⟨f.local_path :: s.fs.files, s.fs.dirs⟩,
           s.events ++ [Event.fetchFile f.urn f.local_path]⟩
          ⟨⟨f.local_path :: t.fs.files, t.fs.dirs⟩,
           t.events ++ [Event.fetchFile f.urn f.local_path]⟩
          henv (by simpa using congrArg (List.cons f.local_path) hfl)
        rcases hra : MirrorXNATArchive.fillLoop env1 rest
            ⟨⟨f.local_path :: s.fs.files, s.fs.dirs⟩,
             s.events ++ [Event.fetchFile f.urn f.local_path]⟩ with ⟨va, sa⟩
        rcases hrb : MirrorXNATArchive.fillLoop env2 rest
            ⟨⟨f.local_path :: t.fs.files, t.fs.dirs⟩,
             t.events ++ [Event.fetchFile f.urn f.local_path]⟩ with ⟨vb, sb⟩
        rw [hra, hrb] at h1 h2
        have hv : va = vb := h1
        have hfls : sa.fs.files = sb.fs.files := h2
        subst hv
        cases va with
        | error e =>
          exact ⟨by simp [MirrorXNATArchive.fillLoop, FS.isfile, hm, hmt,
                    doFetch_ok env1 f f.local_path s hfe,
                    doFetch_ok env2 f f.local_path t hfe2, hra, hrb],
                 by simp [MirrorXNATArchive.fillLoop, FS.isfile, hm, hmt,
                    doFetch_ok env1 f f.local_path s hfe,
                    doFetch_ok env2 f f.local_path t hfe2, hra, hrb, hfls]⟩
        | ok pa =>
          exact ⟨by simp [MirrorXNATArchive.fillLoop, FS.isfile, hm, hmt,
                    doFetch_ok env1 f f.local_path s hfe,
                    doFetch_ok env2 f f.local_path t hfe2, hra, hrb],
                 by simp [MirrorXNATArchive.fillLoop, FS.isfile, hm, hmt,
                    doFetch_ok env1 f f.local_path s hfe,
                    doFetch_ok env2 f f.local_path t hfe2, hra, hrb, hfls]⟩

/-- Claim C9 counterexample: a permission `OSError` (`EACCES`) — an I/O
fault that is not directory-already-exists — raised by `os.makedirs`
during destination preparation is swallowed: incremental-mirror zip
building still completes normally instead of propagating the fault. -/
theorem makedirs_eacces_suppressed :
    envAcc.makedirsErr "/out" = some "EACCES" ∧
    (MirrorXNATArchive.get_resource envAcc arch1 res1 false (some "/out") s0).1
        = Except.ok (RGet.zipPath "/out/R1.zip") :=
  ⟨rfl, by decide⟩

/-- Claim C9 as amended: the `except OSError: pass` around `os.makedirs` in
incremental-mirror zip building is the sole suppression site, and it
swallows every `OSError` kind (not only directory-already-exists): the
operation's outcome value never depends on the makedirs fault; faults
elsewhere — e.g. a single-file fetch failure during hole-filling —
propagate uncaught. -/
theorem makedirs_suppression_sole :
    (∀ (env : Env) (k : String) (a : XNATArchive) (r : Resource) (d : String) (s : St),
      (MirrorXNATArchive._zip_resource { env with makedirsErr := fun _ => some k } a r d s).1
        = (MirrorXNATArchive._zip_resource { env with makedirsErr := fun _ => none } a r d s).1) ∧
    (∀ (env : Env) (r : Resource) (s : St) (f : FileObj) (rest : List FileObj) (e : PyErr),
      r.files = f :: rest →
      s.fs.isfile f.local_path = false →
      env.fetchErr f.urn f.local_path = some e →
      (MirrorXNATArchive._fill_resource_holes env r s).1 = Except.error e) := by
  constructor
  · intro env k a r d s
    cases hroot : XNATArchive._get_resource_local_root a r with
    | error e => simp [MirrorXNATArchive._zip_resource, hroot]
    | ok root =>
      by_cases hfm : root ∈ s.fs.files
      · obtain ⟨h1, h2⟩ := fillLoop_congr r.files
          { env with makedirsErr := fun _ => some k }
          { env with makedirsErr := fun _ => none }
          s ⟨⟨s.fs.files, d :: s.fs.dirs⟩, s.events ++ [Event.makedirs d]⟩ rfl rfl
        rcases hra : MirrorXNATArchive.fillLoop
            { env with makedirsErr := fun _ => some k } r.files s with ⟨va, sa⟩
        rcases hrb : MirrorXNATArchive.fillLoop
            { env with makedirsErr := fun _ => none } r.files
            ⟨⟨s.fs.files, d :: s.fs.dirs⟩, s.events ++ [Event.makedirs d]⟩ with ⟨vb, sb⟩
        rw [hra, hrb] at h1
        have hv : va = vb := h1
        subst hv
        cases va with
        | error e =>
          simp [MirrorXNATArchive._zip_resource, hroot, tryMakedirs, FS.isfile, hfm,
            MirrorXNATArchive._fill_resource_holes, hra, hrb]
        | ok pa =>
          simp [MirrorXNATArchive._zip_resource, hroot, tryMakedirs, FS.isfile, hfm,
            MirrorXNATArchive._fill_resource_holes, hra, hrb]
      · simp [MirrorXNATArchive._zip_resource, hroot, tryMakedirs, FS.isfile, hfm,
          bulkZipOp, extractZipOp]
  · intro env r s f rest e hfiles hc hfe
    have hm : f.local_path ∉ s.fs.files := by simpa [FS.isfile] using hc
    simp [MirrorXNATArchive._fill_resource_holes, hfiles, MirrorXNATArchive.fillLoop,
      FS.isfile, hm, doFetch, hfe]

/-- Witness for the amended C9 at concrete inputs: an `EACCES` makedirs
fault leaves the zip-building outcome unchanged, and a network fetch fault
propagates out of hole-filling. -/
theorem makedirs_suppression_sole_witness :
    ((MirrorXNATArchive._zip_resource { envOK with makedirsErr := fun _ => some "EACCES" }
        arch1 res1 "/out" s0).1
      = (MirrorXNATArchive._zip_resource { envOK with makedirsErr := fun _ => none }
        arch1 res1 "/out" s0).1) ∧
    (res1.files = f1 :: [f2] ∧
     s0.fs.isfile f1.local_path = false ∧
     envBad.fetchErr f1.urn f1.local_path = some (PyErr.osError "ENETDOWN") ∧
     (MirrorXNATArchive._fill_resource_holes envBad res1 s0).1
        = Except.error (PyErr.osError "ENETDOWN")) :=
  ⟨makedirs_suppression_sole.1 envOK "EACCES" arch1 res1 "/out" s0,
   rfl, by decide, rfl,
   makedirs_suppression_sole.2 envBad res1 s0 f1 [f2] (PyErr.osError "ENETDOWN")
     rfl (by decide) rfl⟩
